import Mathlib

/-!
Verification of the NeedleInAHaystack activity tracker ("second brain").

Shallow embedding of the event buffer of the capture pipeline
(`learner/src/keylogger.rs`) and of the query resolution engine
(`recall/src/query_engine.rs`).  Rust strings are modelled as lists of
characters (`RStr`); the ambient clock (`Utc::now()` / `Local::now()`) is an
explicit `Clock` value; the PostgreSQL pool and the Timescale event store are
modelled as functions that may return a `DbError`, with the concrete SQL
statements of `query_engine.rs` given executable semantics over an in-memory
table of rows.
-/

namespace SecondBrain

/-- Rust `String` / `&str`, modelled as its sequence of characters. -/
abbrev RStr := List Char

/-- Coerce a Lean string literal to the `RStr` model. -/
def str (s : String) : RStr := s.data

/-- Rust `str::to_lowercase` (the sources only ever lowercase ASCII text). -/
def lower (s : RStr) : RStr := s.map Char.toLower

/-- Rust `str::starts_with(pat)`. -/
def listStartsWith : RStr → RStr → Bool
  | _, [] => true
  | [], _ :: _ => false
  | c :: s, p :: ps => (c == p) && listStartsWith s ps

/-- All character positions of `s` at which `pat` occurs as a sublist. -/
def subIdxs (s pat : RStr) : List Nat :=
  (List.range (s.length + 1)).filter (fun i => listStartsWith (s.drop i) pat)

/-- Rust `str::find(pat)`: position of the first occurrence of `pat`. -/
def findSubIdx (s pat : RStr) : Option Nat := (subIdxs s pat).head?

/-- Rust `str::rfind(pat)`: position of the last occurrence of `pat`. -/
def rfindSubIdx (s pat : RStr) : Option Nat := (subIdxs s pat).getLast?

/-- Rust `str::contains(pat)` (substring containment). -/
def containsSub (s pat : RStr) : Bool := (findSubIdx s pat).isSome

/-- Rust `str::trim`. -/
def trim (s : RStr) : RStr :=
  ((s.dropWhile Char.isWhitespace).reverse.dropWhile Char.isWhitespace).reverse

/-- Rust `str::split_whitespace`: split on whitespace runs, dropping empties. -/
def split_whitespace (s : RStr) : List RStr :=
  (s.splitOnP Char.isWhitespace).filter (fun t => !t.isEmpty)

/-- Structure `AppContext` from `common/src/models.rs`. -/
structure AppContext where
  app_name : RStr
  window_title : RStr
  url : Option RStr
deriving DecidableEq, Repr

/-- Structure `UserEvent` from `common/src/models.rs` (the ActivityEvent of the spec). -/
structure UserEvent where
  timestamp : Int
  event : RStr
  data : RStr
  app_context : AppContext
deriving DecidableEq, Repr

/-- Structure `ActivitySummary` from `common/src/models.rs`. -/
structure ActivitySummary where
  start_time : Int
  end_time : Int
  description : RStr
  events : List UserEvent
  tags : List RStr
deriving DecidableEq, Repr

/-- One row of the PostgreSQL `user_summaries` table (see the CREATE TABLE in
`common/src/db/mod.rs` and the SELECT list in `query_engine.rs`). -/
structure SummaryRow where
  id : Int
  start_time : Int
  end_time : Int
  description : RStr
  tags : List RStr
  keystrokes : RStr
  created_at : Int
deriving DecidableEq, Repr

/-- Structure `Timeframe` from `recall/src/query_engine.rs`.  The Rust field `end` is a
Lean keyword and is rendered `endTime`. -/
structure Timeframe where
  start : Int
  endTime : Int
  description : RStr
deriving DecidableEq, Repr

/-- Inductive `QueryResult` from `recall/src/query_engine.rs`. -/
inductive QueryResult where
  | Summaries (summaries : List ActivitySummary) (timeframe : Timeframe)
      (query : RStr) (app_filter : Option RStr)
  | Events (events : List UserEvent) (timeframe : Timeframe)
      (query : RStr) (app_filter : Option RStr)
  | Empty (timeframe : Timeframe) (query : RStr) (app_filter : Option RStr)
deriving DecidableEq, Repr

/-- A store-layer failure (`Box<dyn Error + Send + Sync>` in the Rust). -/
inductive DbError where
  | failure (msg : RStr)
deriving DecidableEq, Repr

/-! ## Capture pipeline: the bounded event buffer (`learner/src/keylogger.rs`) -/

/-- Constant `MAX_BUFFER_SIZE` from `learner/src/keylogger.rs` line 10. -/
def MAX_BUFFER_SIZE : Nat := 1000

/-- One producer step on the event buffer (`keylogger.rs` lines 186-194):
`push_back(event)` followed by `pop_front()` when the length exceeds
`MAX_BUFFER_SIZE`.  The `VecDeque` is modelled head-first, so `push_back` is
append and `pop_front` drops the head. -/
def push (buffer : List UserEvent) (event : UserEvent) : List UserEvent :=
  let buffer := buffer ++ [event]
  if buffer.length > MAX_BUFFER_SIZE then buffer.tail else buffer

/-- A whole sequence of producer steps, oldest push first. -/
def pushAll (buffer : List UserEvent) (events : List UserEvent) : List UserEvent :=
  events.foldl push buffer

/-- Function `Keylogger::poll` (`keylogger.rs` lines 221-224): `pop_front` on the
buffer, returning the removed element (if any) and the remaining buffer. -/
def poll (buffer : List UserEvent) : Option UserEvent × List UserEvent :=
  match buffer with
  | [] => (none, [])
  | e :: rest => (some e, rest)

/-- Function `is_likely_url` from `keylogger.rs` lines 33-43. -/
def is_likely_url (text : RStr) : Bool :=
  let text := trim text
  listStartsWith text (str "http") ||
  listStartsWith text (str "www.") ||
  containsSub text (str ".com") ||
  containsSub text (str ".org") ||
  containsSub text (str ".net") ||
  containsSub text (str ".io") ||
  containsSub text (str ".app") ||
  containsSub text (str ".dev")

/-- The browser-URL extraction of `keylogger.rs` lines 97-124 (the
`browser_url` computation for a browser window title that is not the
monkeytype special case): pattern 1 takes the prefix before the first
`" - "`, pattern 2 the suffix after the last `" | "`, pattern 3 the whole
title, each accepted only when `is_likely_url` holds. -/
def extract_browser_url (title : RStr) : Option RStr :=
  match findSubIdx title (str " - ") with
  | some i =>
    let potential_url := trim (title.take i)
    if is_likely_url potential_url then some potential_url else none
  | none =>
    match rfindSubIdx title (str " | ") with
    | some i =>
      let potential_url := trim (title.drop (i + 3))
      if is_likely_url potential_url then some potential_url else none
    | none =>
      if is_likely_url title then some title else none

/-! ## Query engine: pure helpers (`recall/src/query_engine.rs`) -/

/-- The ambient clock observed by `parse_timeframe`.  `now` is `Utc::now()`
in seconds; `midnightDaysAgo k` is the UTC instant of local midnight of the
day `k` days before today (so `midnightDaysAgo 0` is local midnight of today);
`daysSinceMonday` is `Local::now().weekday().num_days_from_monday()`;
`thisMonthStart` is local midnight of the 1st of the current month. -/
structure Clock where
  now : Int
  midnightDaysAgo : Nat → Int
  daysSinceMonday : Nat
  thisMonthStart : Int

/-- Function `QueryEngine::parse_timeframe` (`query_engine.rs` lines 373-458); time
arithmetic is in seconds (`Duration::hours(24)` = 86400 and so on). -/
def parse_timeframe (c : Clock) (query : RStr) : Timeframe :=
  let now := c.now
  let query := lower query
  if containsSub query (str "today") then
    { start := c.midnightDaysAgo 0, endTime := now, description := str "today" }
  else if containsSub query (str "yesterday") then
    { start := c.midnightDaysAgo 1, endTime := c.midnightDaysAgo 0,
      description := str "yesterday" }
  else if containsSub query (str "this week") then
    { start := c.midnightDaysAgo c.daysSinceMonday, endTime := now,
      description := str "this week" }
  else if containsSub query (str "last week") then
    { start := c.midnightDaysAgo (c.daysSinceMonday + 7),
      endTime := c.midnightDaysAgo c.daysSinceMonday,
      description := str "last week" }
  else if containsSub query (str "this month") then
    { start := c.thisMonthStart, endTime := now, description := str "this month" }
  else if containsSub query (str "last hour") || containsSub query (str "past hour") then
    { start := now - 3600, endTime := now, description := str "the last hour" }
  else if containsSub query (str "30 min") || containsSub query (str "half hour")
      || containsSub query (str "half an hour") then
    { start := now - 1800, endTime := now, description := str "the last 30 minutes" }
  else
    { start := now - 86400, endTime := now, description := str "the last 24 hours" }

/-- The `known_apps` array of `QueryEngine::extract_app_name`. -/
def known_apps : List RStr :=
  [str "ghostty", str "vscode", str "visual studio code", str "chrome",
   str "firefox", str "safari", str "terminal", str "slack", str "discord",
   str "notion", str "figma"]

/-- The `patterns` array of `extract_app_name`: `" in {app} "` and friends. -/
def space_patterns (app : RStr) : List RStr :=
  [str " in " ++ app ++ str " ",
   str " on " ++ app ++ str " ",
   str " using " ++ app ++ str " ",
   str " with " ++ app ++ str " ",
   str " at " ++ app ++ str " "]

/-- The `start_patterns` array of `extract_app_name`: the same prepositions
with the app name immediately followed by a period or a question mark. -/
def sentence_patterns (app : RStr) : List RStr :=
  [str " in " ++ app ++ str ".",
   str " on " ++ app ++ str ".",
   str " using " ++ app ++ str ".",
   str " with " ++ app ++ str ".",
   str " at " ++ app ++ str ".",
   str " in " ++ app ++ str "?",
   str " on " ++ app ++ str "?",
   str " using " ++ app ++ str "?",
   str " with " ++ app ++ str "?",
   str " at " ++ app ++ str "?"]

/-- Function `QueryEngine::extract_app_name` (`query_engine.rs` lines 95-142): the
outer loop over `known_apps` returns the first app for which some pattern
occurs in the lower-cased query. -/
def extract_app_name (query : RStr) : Option RStr :=
  let q := lower query
  known_apps.findSome? (fun app =>
    if (space_patterns app).any (fun p => containsSub q p) then some app
    else if (sentence_patterns app).any (fun p => containsSub q p) then some app
    else none)

/-- Function `QueryEngine::sanitize_query_for_search` (`query_engine.rs` lines
353-370).  Rust `char::is_alphanumeric` is modelled by `Char.isAlphanum`
(the sources only feed it ASCII). -/
def sanitize_query_for_search (query : RStr) : RStr :=
  let clean_query := query.filter (fun c => c.isAlphanum || c.isWhitespace)
  let terms := (split_whitespace clean_query).filter (fun word => word.length ≥ 3)
  if terms.isEmpty then str "user activity"
  else List.intercalate (str " OR ") terms

/-! ## Query engine: SQL semantics over an in-memory `user_summaries` table -/

/-- Descending `start_time` order used by both `ORDER BY start_time DESC`
queries of `query_engine.rs`. -/
def rowGE (a b : SummaryRow) : Prop := b.start_time ≤ a.start_time

instance : DecidableRel rowGE :=
  fun a b => inferInstanceAs (Decidable (b.start_time ≤ a.start_time))

instance : IsTotal SummaryRow rowGE :=
  ⟨fun a b => le_total b.start_time a.start_time⟩

instance : IsTrans SummaryRow rowGE :=
  ⟨fun _ _ _ h1 h2 => le_trans h2 h1⟩

/-- The WHERE clause of `get_summaries_in_timeframe` (`query_engine.rs` lines
179-182): `(start_time BETWEEN $1 AND $2) OR (end_time BETWEEN $1 AND $2) OR
(start_time <= $1 AND end_time >= $2)`. -/
def overlaps_window (s e : Int) (r : SummaryRow) : Bool :=
  (s ≤ r.start_time && r.start_time ≤ e) ||
  (s ≤ r.end_time && r.end_time ≤ e) ||
  (r.start_time ≤ s && e ≤ r.end_time)

/-- Semantics of the SQL of `get_summaries_in_timeframe` (lines 172-190):
rows overlapping the window, ordered by `start_time DESC`, no limit. -/
def sql_summaries_in_timeframe (table : List SummaryRow) (s e : Int) :
    List SummaryRow :=
  List.insertionSort rowGE (table.filter (overlaps_window s e))

/-- Postgres ILIKE against the pattern percent-sign, term, percent-sign,
for a term with no wildcard characters in it (the sanitized search terms
are alphanumeric words and spaces): case-insensitive substring test. -/
def ilike_contains (s pat : RStr) : Bool := containsSub (lower s) (lower pat)

/-- Semantics of the SQL of `search_summaries` (`query_engine.rs` lines
210-226): `WHERE description ILIKE $1 ORDER BY start_time DESC LIMIT 10`,
with the bound pattern percent-sign, search term, percent-sign.  Only the
description column is searched. -/
def sql_search_user_summaries (table : List SummaryRow) (search_term : RStr) :
    List SummaryRow :=
  (List.insertionSort rowGE
    (table.filter (fun r => ilike_contains r.description search_term))).take 10

/-- Function `QueryEngine::create_events_from_keystrokes` (lines 332-351). -/
def create_events_from_keystrokes (keystrokes : RStr) (start_time : Int) :
    List UserEvent :=
  [{ timestamp := start_time,
     event := str "keystroke_summary",
     data := keystrokes,
     app_context :=
       { app_name := str "Summary",
         window_title := str "Activity Summary",
         url := none } }]

/-- Function `QueryEngine::parse_summary_from_row` (lines 306-328) on a well-typed
row (the `try_get` calls cannot fail on a row drawn from the declared
schema). -/
def parse_summary_from_row (r : SummaryRow) : ActivitySummary :=
  { start_time := r.start_time,
    end_time := r.end_time,
    description := r.description,
    events := create_events_from_keystrokes r.keystrokes r.start_time,
    tags := r.tags }

/-- Tier C content search against a PostgreSQL-backed summary store:
`search_summaries` = SQL query + row parsing. -/
def search_summaries_impl (table : List SummaryRow) (search_term : RStr) :
    List ActivitySummary :=
  (sql_search_user_summaries table search_term).map parse_summary_from_row

/-- Tier A fetch against a PostgreSQL-backed summary store:
`get_summaries_in_timeframe` = SQL query + row parsing. -/
def summaries_in_timeframe_impl (table : List SummaryRow) (s e : Int) :
    List ActivitySummary :=
  (sql_summaries_in_timeframe table s e).map parse_summary_from_row

/-! ## Query engine: stores and `process_query` -/

/-- Structure `TimescaleClient` as used by the query engine: its only observed
capability, `get_events_in_timeframe`, which may fail. -/
structure TimescaleClient where
  get_events_in_timeframe : Int → Int → Except DbError (List UserEvent)

/-- Structure `QueryEngine` (`query_engine.rs` lines 12-15): the PostgreSQL pool is
modelled by the two queries the engine runs against it (each may fail, as a
`sqlx` call may), plus the optional event store. -/
structure QueryEngine where
  get_summaries_in_timeframe : Int → Int → Except DbError (List ActivitySummary)
  search_summaries : RStr → Except DbError (List ActivitySummary)
  event_db : Option TimescaleClient

/-- The app post-filter shared (inlined twice in the Rust) by
`get_summaries_by_app` (lines 250-267) and `search_summaries_by_app`
(lines 283-300): keep summaries whose description, the app name of any
contained event, or any tag contains the app name case-insensitively. -/
def filter_summaries_by_app (summaries : List ActivitySummary)
    (app_name : RStr) : List ActivitySummary :=
  let app_name_lower := lower app_name
  summaries.filter (fun summary =>
    let desc_contains := containsSub (lower summary.description) app_name_lower
    let events_contain := summary.events.any (fun event =>
      containsSub (lower event.app_context.app_name) app_name_lower)
    let tags_contain := summary.tags.any (fun tag =>
      containsSub (lower tag) app_name_lower)
    desc_contains || events_contain || tags_contain)

/-- Function `QueryEngine::get_summaries_by_app` (lines 239-270). -/
def get_summaries_by_app (e : QueryEngine) (s en : Int) (app_name : RStr) :
    Except DbError (List ActivitySummary) := do
  let all_summaries ← e.get_summaries_in_timeframe s en
  pure (filter_summaries_by_app all_summaries app_name)

/-- Function `QueryEngine::search_summaries_by_app` (lines 273-303). -/
def search_summaries_by_app (e : QueryEngine) (search_term app_name : RStr) :
    Except DbError (List ActivitySummary) := do
  let matching_summaries ← e.search_summaries search_term
  pure (filter_summaries_by_app matching_summaries app_name)

/-- Function `QueryEngine::get_events_by_app` (lines 145-163). -/
def get_events_by_app (event_db : TimescaleClient) (s en : Int)
    (app_name : RStr) : Except DbError (List UserEvent) := do
  let events ← event_db.get_events_in_timeframe s en
  let app_name_lower := lower app_name
  pure (events.filter (fun event =>
    containsSub (lower event.app_context.app_name) app_name_lower))

/-- Function `QueryEngine::process_query` (`query_engine.rs` lines 26-92).  The Rust
early returns become an if/else cascade; when no event store is configured
the Rust skips the Tier B block entirely, modelled as an empty event list
(both make `Events` unreachable and run no store call). -/
def process_query (e : QueryEngine) (c : Clock) (query : RStr) :
    Except DbError QueryResult := do
  let timeframe := parse_timeframe c query
  let app_filter := extract_app_name query
  let summaries ← match app_filter with
    | some app_name => get_summaries_by_app e timeframe.start timeframe.endTime app_name
    | none => e.get_summaries_in_timeframe timeframe.start timeframe.endTime
  if !summaries.isEmpty then
    pure (QueryResult.Summaries summaries timeframe query app_filter)
  else do
    let events ← match e.event_db with
      | some event_db =>
        match app_filter with
        | some app_name => get_events_by_app event_db timeframe.start timeframe.endTime app_name
        | none => event_db.get_events_in_timeframe timeframe.start timeframe.endTime
      | none => pure []
    if !events.isEmpty then
      pure (QueryResult.Events events timeframe query app_filter)
    else do
      let clean_query := sanitize_query_for_search query
      let found ← match app_filter with
        | some app_name => search_summaries_by_app e clean_query app_name
        | none => e.search_summaries clean_query
      if !found.isEmpty then
        pure (QueryResult.Summaries found timeframe query app_filter)
      else
        pure (QueryResult.Empty timeframe query app_filter)

/-- A `QueryEngine` whose PostgreSQL pool serves the SQL of
`query_engine.rs` over an in-memory `user_summaries` table and never fails. -/
def pgQueryEngine (table : List SummaryRow) (event_db : Option TimescaleClient) :
    QueryEngine :=
  { get_summaries_in_timeframe := fun s e =>
      Except.ok (summaries_in_timeframe_impl table s e),
    search_summaries := fun term =>
      Except.ok (search_summaries_impl table term),
    event_db := event_db }

/-! ## Tier observations used to state the resolution-order claims -/

/-- The Tier A result: summaries overlapping the window, app-filtered when an
app filter was extracted (the first store access of `process_query`). -/
def tier_a (e : QueryEngine) (c : Clock) (query : RStr) :
    Except DbError (List ActivitySummary) :=
  let timeframe := parse_timeframe c query
  match extract_app_name query with
  | some app_name => get_summaries_by_app e timeframe.start timeframe.endTime app_name
  | none => e.get_summaries_in_timeframe timeframe.start timeframe.endTime

/-- The Tier B result: raw events in the window (app-filtered when a filter
was extracted), or no events at all when no event store is configured. -/
def tier_b (e : QueryEngine) (c : Clock) (query : RStr) :
    Except DbError (List UserEvent) :=
  let timeframe := parse_timeframe c query
  match e.event_db with
  | some event_db =>
    match extract_app_name query with
    | some app_name => get_events_by_app event_db timeframe.start timeframe.endTime app_name
    | none => event_db.get_events_in_timeframe timeframe.start timeframe.endTime
  | none => pure []

/-- The Tier C result: content search by the sanitized query, app-filtered
when a filter was extracted. -/
def tier_c (e : QueryEngine) (query : RStr) :
    Except DbError (List ActivitySummary) :=
  let clean_query := sanitize_query_for_search query
  match extract_app_name query with
  | some app_name => search_summaries_by_app e clean_query app_name
  | none => e.search_summaries clean_query

/-! ## Auxiliary definitions for stating the claims -/

/-- A concrete clock instant, for witnesses. -/
def testClock : Clock :=
  { now := 0, midnightDaysAgo := fun _ => 0, daysSinceMonday := 0, thisMonthStart := 0 }

/-- The disjunction of all time phrases recognized by `parse_timeframe`. -/
def mentions_time_phrase (query : RStr) : Bool :=
  let q := lower query
  containsSub q (str "today") || containsSub q (str "yesterday") ||
  containsSub q (str "this week") || containsSub q (str "last week") ||
  containsSub q (str "this month") || containsSub q (str "last hour") ||
  containsSub q (str "past hour") || containsSub q (str "30 min") ||
  containsSub q (str "half hour") || containsSub q (str "half an hour")

/-- The per-app match test of `extract_app_name`: some preposition pattern
(space-, period- or question-mark-terminated) occurs in the query. -/
def app_query_match (q app : RStr) : Bool :=
  (space_patterns app).any (fun p => containsSub q p) ||
  (sentence_patterns app).any (fun p => containsSub q p)

/-- An `UserEvent` with all fields trivial, for witnesses. -/
def dummyEvent : UserEvent :=
  { timestamp := 0, event := [], data := [],
    app_context := { app_name := [], window_title := [], url := none } }

/-! ## Helper lemmas -/

theorem findSome?_if_or_eq_find? {α : Type} (p1 p2 : α → Bool) (l : List α) :
    (l.findSome? fun a => if p1 a then some a else if p2 a then some a else none)
      = l.find? (fun a => p1 a || p2 a) := by
  induction l with
  | nil => rfl
  | cons x xs ih =>
    rw [List.findSome?_cons, List.find?_cons]
    cases h1 : p1 x with
    | true => simp [h1]
    | false =>
      cases h2 : p2 x with
      | true => simp [h1, h2]
      | false => simpa [h1, h2] using ih

theorem push_eq_drop (buf : List UserEvent) (e : UserEvent)
    (h : buf.length ≤ MAX_BUFFER_SIZE) :
    push buf e = (buf ++ [e]).drop (buf.length + 1 - MAX_BUFFER_SIZE) := by
  unfold push
  by_cases hlen : buf.length = MAX_BUFFER_SIZE
  · have hc : (buf ++ [e]).length > MAX_BUFFER_SIZE := by
      simp [hlen]
    rw [if_pos hc, hlen, Nat.add_sub_cancel_left, ← List.drop_one]
  · have hlt : buf.length < MAX_BUFFER_SIZE := lt_of_le_of_ne h hlen
    have hc : ¬ (buf ++ [e]).length > MAX_BUFFER_SIZE := by
      simp only [List.length_append, List.length_cons, List.length_nil]
      omega
    rw [if_neg hc, Nat.sub_eq_zero_of_le (by omega), List.drop_zero]

theorem pushAll_eq_drop (es : List UserEvent) :
    ∀ (buf : List UserEvent), buf.length ≤ MAX_BUFFER_SIZE →
      pushAll buf es = (buf ++ es).drop (buf.length + es.length - MAX_BUFFER_SIZE) := by
  induction es with
  | nil =>
    intro buf h
    simp [pushAll, Nat.sub_eq_zero_of_le h]
  | cons e rest ih =>
    intro buf h
    have hstep : pushAll buf (e :: rest) = pushAll (push buf e) rest := rfl
    rw [hstep, push_eq_drop buf e h]
    have hk : buf.length + 1 - MAX_BUFFER_SIZE ≤ (buf ++ [e]).length := by
      simp only [List.length_append, List.length_cons, List.length_nil]
      omega
    have hlen2 : ((buf ++ [e]).drop (buf.length + 1 - MAX_BUFFER_SIZE)).length
        ≤ MAX_BUFFER_SIZE := by
      simp only [List.length_drop, List.length_append, List.length_cons,
        List.length_nil]
      omega
    rw [ih _ hlen2]
    rw [List.length_drop]
    have happ : (buf ++ [e]).drop (buf.length + 1 - MAX_BUFFER_SIZE) ++ rest
        = ((buf ++ [e]) ++ rest).drop (buf.length + 1 - MAX_BUFFER_SIZE) :=
      (List.drop_append_of_le_length hk).symm
    rw [happ, List.drop_drop]
    have hlists : (buf ++ [e]) ++ rest = buf ++ e :: rest := by
      simp
    rw [hlists]
    refine congrArg (fun n => List.drop n (buf ++ e :: rest)) ?_
    simp only [List.length_append, List.length_cons, List.length_nil]
    omega

/-! ## Claims -/

/-- C9: `poll` (pop_front) on an empty buffer returns `none` (the explicit
empty marker) and leaves the buffer empty, never panicking (the model is a
total function); on a non-empty buffer it removes and returns the head,
i.e. the oldest element. -/
theorem claim_C9_poll_empty_and_head :
    poll [] = ((none : Option UserEvent), ([] : List UserEvent))
    ∧ ∀ (e : UserEvent) (rest : List UserEvent), poll (e :: rest) = (some e, rest) :=
  ⟨rfl, fun _ _ => rfl⟩

/-- C4: any query that mentions none of the recognized time phrases (the
empty string, "banana", ...) gets the default window: start = now − 24
hours, end = now, description "the last 24 hours".  `parse_timeframe` is a
total function, so no input is ever rejected. -/
theorem claim_C4_default_timeframe (c : Clock) (q : RStr)
    (h : mentions_time_phrase q = false) :
    parse_timeframe c q =
      { start := c.now - 86400, endTime := c.now,
        description := str "the last 24 hours" } := by
  simp only [mentions_time_phrase, Bool.or_eq_false_iff] at h
  obtain ⟨⟨⟨⟨⟨⟨⟨⟨⟨h1, h2⟩, h3⟩, h4⟩, h5⟩, h6⟩, h7⟩, h8⟩, h9⟩, h10⟩ := h
  simp [parse_timeframe, h1, h2, h3, h4, h5, h6, h7, h8, h9, h10]

/-- Witness for C4 at the concrete query "banana". -/
theorem claim_C4_witness :
    mentions_time_phrase (str "banana") = false
    ∧ parse_timeframe testClock (str "banana") =
        { start := testClock.now - 86400, endTime := testClock.now,
          description := str "the last 24 hours" } :=
  ⟨by decide, claim_C4_default_timeframe testClock (str "banana") (by decide)⟩

/-- C6: `extract_app_name` returns the first app of the `known_apps` list
(in list order) for which the lower-cased query contains a preposition
pattern (" in app ", " on app ", " using app ", " with app ", " at app ",
or the same with the app immediately followed by a period or a question
mark), and `none` when no known app matches; in particular it returns
"vscode" for "what did I do on vscode today" and `none` for
"what did I do today". -/
theorem claim_C6_extract_app_name :
    (∀ q : RStr, extract_app_name q
        = known_apps.find? (fun app => app_query_match (lower q) app))
    ∧ extract_app_name (str "what did I do on vscode today") = some (str "vscode")
    ∧ extract_app_name (str "what did I do today") = none := by
  refine ⟨fun q => ?_, by decide, by decide⟩
  simpa [extract_app_name, app_query_match] using
    findSome?_if_or_eq_find?
      (fun app => (space_patterns app).any (fun p => containsSub (lower q) p))
      (fun app => (sentence_patterns app).any (fun p => containsSub (lower q) p))
      known_apps

/-- C3: after any sequence of more than `MAX_BUFFER_SIZE` (1000) pushes the
buffer holds exactly the last 1000 pushed events in push order; its length
is then exactly 1000; a push from a reachable state (length ≤ 1000) keeps
the length ≤ 1000; and a push onto a full buffer evicts exactly the single
oldest element.  Every push is a total function: it always succeeds. -/
theorem claim_C3_buffer_keeps_last_N (es : List UserEvent)
    (h : es.length > MAX_BUFFER_SIZE) :
    pushAll [] es = es.drop (es.length - MAX_BUFFER_SIZE)
    ∧ (pushAll [] es).length = MAX_BUFFER_SIZE
    ∧ (∀ (buf : List UserEvent) (e : UserEvent),
        buf.length ≤ MAX_BUFFER_SIZE → (push buf e).length ≤ MAX_BUFFER_SIZE)
    ∧ (∀ (buf : List UserEvent) (e : UserEvent),
        buf.length = MAX_BUFFER_SIZE → push buf e = buf.tail ++ [e]) := by
  have hmain : pushAll [] es = es.drop (es.length - MAX_BUFFER_SIZE) := by
    have := pushAll_eq_drop es [] (by simp)
    simpa using this
  refine ⟨hmain, ?_, ?_, ?_⟩
  · rw [hmain, List.length_drop]
    omega
  · intro buf e hle
    rw [push_eq_drop buf e hle, List.length_drop]
    simp only [List.length_append, List.length_cons, List.length_nil]
    omega
  · intro buf e heq
    have hc : (buf ++ [e]).length > MAX_BUFFER_SIZE := by
      simp [heq]
    unfold push
    rw [if_pos hc]
    cases buf with
    | nil => simp [MAX_BUFFER_SIZE] at heq
    | cons b bs => rfl

/-- Witness for C3: a concrete sequence of 1001 pushes ends with a buffer of
exactly 1000 events. -/
theorem claim_C3_witness :
    (List.replicate 1001 dummyEvent).length > MAX_BUFFER_SIZE
    ∧ (pushAll [] (List.replicate 1001 dummyEvent)).length = MAX_BUFFER_SIZE :=
  ⟨by simp only [List.length_replicate, MAX_BUFFER_SIZE]; omega,
   (claim_C3_buffer_keeps_last_N _
     (by simp only [List.length_replicate, MAX_BUFFER_SIZE]; omega)).2.1⟩

/-- Binding a successful `Except` computation just applies the continuation. -/
theorem except_ok_bind {α β : Type} (a : α) (f : α → Except DbError β) :
    (Except.ok a : Except DbError α) >>= f = f a := rfl

/-- Binding a failed `Except` computation propagates the error. -/
theorem except_error_bind {α β : Type} (err : DbError)
    (f : α → Except DbError β) :
    (Except.error err : Except DbError α) >>= f = Except.error err := rfl

/-- Lemma: `process_query` is definitionally the cascade of the three tier
observations: Tier A first, Tier B only when Tier A was empty, Tier C only
when Tier B was also empty, `Empty` when all three were. -/
theorem process_query_as_tiers (e : QueryEngine) (c : Clock) (q : RStr) :
    process_query e c q
      = (tier_a e c q >>= fun summaries =>
          if !summaries.isEmpty then
            pure (QueryResult.Summaries summaries (parse_timeframe c q) q
              (extract_app_name q))
          else
            tier_b e c q >>= fun events =>
              if !events.isEmpty then
                pure (QueryResult.Events events (parse_timeframe c q) q
                  (extract_app_name q))
              else
                tier_c e q >>= fun found =>
                  if !found.isEmpty then
                    pure (QueryResult.Summaries found (parse_timeframe c q) q
                      (extract_app_name q))
                  else
                    pure (QueryResult.Empty (parse_timeframe c q) q
                      (extract_app_name q))) := by
  simp only [process_query, tier_a, tier_b, tier_c]
  cases haf : extract_app_name q <;> cases hdb : e.event_db <;>
    simp only [haf, hdb]

/-- Full characterization of `process_query` when every store call involved
succeeds. -/
theorem process_query_ok_characterization (e : QueryEngine) (c : Clock)
    (q : RStr) (sA : List ActivitySummary) (evB : List UserEvent)
    (sC : List ActivitySummary) (hA : tier_a e c q = Except.ok sA)
    (hB : tier_b e c q = Except.ok evB) (hC : tier_c e q = Except.ok sC) :
    process_query e c q = Except.ok
      (if sA ≠ [] then
        QueryResult.Summaries sA (parse_timeframe c q) q (extract_app_name q)
      else if evB ≠ [] then
        QueryResult.Events evB (parse_timeframe c q) q (extract_app_name q)
      else if sC ≠ [] then
        QueryResult.Summaries sC (parse_timeframe c q) q (extract_app_name q)
      else
        QueryResult.Empty (parse_timeframe c q) q (extract_app_name q)) := by
  rw [process_query_as_tiers, hA, except_ok_bind]
  cases sA with
  | cons a as => simp only [List.isEmpty_cons, Bool.not_false, if_true, ne_eq,
      reduceCtorEq, not_false_eq_true, if_pos]; rfl
  | nil =>
    simp only [List.isEmpty_nil, Bool.not_true, Bool.false_eq_true, if_false,
      ne_eq, not_true_eq_false, if_neg, not_false_eq_true, if_true]
    rw [hB, except_ok_bind]
    cases evB with
    | cons v vs => simp only [List.isEmpty_cons, Bool.not_false, if_true, ne_eq,
        reduceCtorEq, not_false_eq_true, if_pos]; rfl
    | nil =>
      simp only [List.isEmpty_nil, Bool.not_true, Bool.false_eq_true, if_false,
        ne_eq, not_true_eq_false, if_neg, not_false_eq_true, if_true]
      rw [hC, except_ok_bind]
      cases sC with
      | cons s ss => simp only [List.isEmpty_cons, Bool.not_false, if_true,
          ne_eq, reduceCtorEq, not_false_eq_true, if_pos]; rfl
      | nil => rfl

/-- A first-tier store failure aborts the whole resolution. -/
theorem process_query_error_of_tier_a (e : QueryEngine) (c : Clock) (q : RStr)
    (err : DbError) (hA : tier_a e c q = Except.error err) :
    process_query e c q = Except.error err := by
  rw [process_query_as_tiers, hA, except_error_bind]

/-- C1: when every store call succeeds, `process_query` resolves the tiers
strictly in order A (windowed summaries, app-filtered if a filter was
extracted), B (raw events, empty unless an event store is configured), C
(content search of summaries by the sanitized query), stops at the first
non-empty tier with the corresponding `Summaries`/`Events` variant, and
returns `Empty` with the timeframe, the original query and the app filter
only when all three tiers are empty. -/
theorem claim_C1_tiered_resolution (e : QueryEngine) (c : Clock) (q : RStr)
    (sA : List ActivitySummary) (evB : List UserEvent)
    (sC : List ActivitySummary) (hA : tier_a e c q = Except.ok sA)
    (hB : tier_b e c q = Except.ok evB) (hC : tier_c e q = Except.ok sC) :
    process_query e c q = Except.ok
      (if sA ≠ [] then
        QueryResult.Summaries sA (parse_timeframe c q) q (extract_app_name q)
      else if evB ≠ [] then
        QueryResult.Events evB (parse_timeframe c q) q (extract_app_name q)
      else if sC ≠ [] then
        QueryResult.Summaries sC (parse_timeframe c q) q (extract_app_name q)
      else
        QueryResult.Empty (parse_timeframe c q) q (extract_app_name q)) :=
  process_query_ok_characterization e c q sA evB sC hA hB hC

/-- Witness for C1: on an engine over an empty summary table with no event
store, the query "banana" falls through every tier and yields `Empty`. -/
theorem claim_C1_witness :
    tier_a (pgQueryEngine [] none) testClock (str "banana") = Except.ok []
    ∧ tier_b (pgQueryEngine [] none) testClock (str "banana") = Except.ok []
    ∧ tier_c (pgQueryEngine [] none) (str "banana") = Except.ok []
    ∧ process_query (pgQueryEngine [] none) testClock (str "banana")
        = Except.ok (QueryResult.Empty
            (parse_timeframe testClock (str "banana")) (str "banana")
            (extract_app_name (str "banana"))) := by
  refine ⟨rfl, rfl, rfl, ?_⟩
  have h := claim_C1_tiered_resolution (pgQueryEngine [] none) testClock
    (str "banana") [] [] [] rfl rfl rfl
  simpa using h

/-- An engine whose summary store is unreachable while the event store holds
data: the first Tier A call fails. -/
def errStores : QueryEngine :=
  { get_summaries_in_timeframe := fun _ _ =>
      Except.error (DbError.failure (str "connection refused")),
    search_summaries := fun _ => Except.ok [],
    event_db := some
      { get_events_in_timeframe := fun _ _ => Except.ok [dummyEvent] } }

/-- C2 is false as stated: with a failing summary store, `process_query`
returns a propagated error (`Err` in the Rust, from the `?` operator), not a
degraded `Empty`; Tier B is never consulted even though its store holds an
event that resolution "proceeding to the next tier" would have returned. -/
theorem claim_C2_counterexample :
    process_query errStores testClock (str "banana")
      = Except.error (DbError.failure (str "connection refused"))
    ∧ tier_b errStores testClock (str "banana") = Except.ok [dummyEvent] :=
  ⟨rfl, rfl⟩

/-- C2 (amended): store errors are not caught inside `process_query`: the
first failing store call aborts resolution and propagates as an `Err` to the
caller (the TCP handler, which answers with a fallback message); only when
every store call succeeds is the result an `Ok` QueryResult. -/
theorem claim_C2_amended_error_propagation :
    (∀ (e : QueryEngine) (c : Clock) (q : RStr) (err : DbError),
        tier_a e c q = Except.error err →
        process_query e c q = Except.error err)
    ∧ (∀ (e : QueryEngine) (c : Clock) (q : RStr)
        (sA : List ActivitySummary) (evB : List UserEvent)
        (sC : List ActivitySummary),
        tier_a e c q = Except.ok sA → tier_b e c q = Except.ok evB →
        tier_c e q = Except.ok sC →
        ∃ r : QueryResult, process_query e c q = Except.ok r) := by
  constructor
  · exact fun e c q err h => process_query_error_of_tier_a e c q err h
  · intro e c q sA evB sC hA hB hC
    exact ⟨_, process_query_ok_characterization e c q sA evB sC hA hB hC⟩

/-- Witness for the amended C2 at the concrete failing engine. -/
theorem claim_C2_witness :
    tier_a errStores testClock (str "banana")
      = Except.error (DbError.failure (str "connection refused"))
    ∧ process_query errStores testClock (str "banana")
      = Except.error (DbError.failure (str "connection refused")) :=
  ⟨rfl, claim_C2_amended_error_propagation.1 errStores testClock
    (str "banana") (DbError.failure (str "connection refused")) rfl⟩

/-- A clock one second after `testClock`. -/
def clock1 : Clock :=
  { now := 1, midnightDaysAgo := fun _ => 0, daysSinceMonday := 0,
    thisMonthStart := 0 }

/-- C8 is false as stated: `parse_timeframe` reads the current time, so two
resolutions of the same query against the same (unchanged, error-free)
stores, one second apart, return different `QueryResult` values - the
embedded timeframe differs. -/
theorem claim_C8_counterexample :
    process_query (pgQueryEngine [] none) testClock (str "banana")
      = Except.ok (QueryResult.Empty
          { start := -86400, endTime := 0, description := str "the last 24 hours" }
          (str "banana") none)
    ∧ process_query (pgQueryEngine [] none) clock1 (str "banana")
      = Except.ok (QueryResult.Empty
          { start := -86399, endTime := 1, description := str "the last 24 hours" }
          (str "banana") none)
    ∧ process_query (pgQueryEngine [] none) testClock (str "banana")
      ≠ process_query (pgQueryEngine [] none) clock1 (str "banana") := by
  have e1 : process_query (pgQueryEngine [] none) testClock (str "banana")
      = Except.ok (QueryResult.Empty
          { start := -86400, endTime := 0, description := str "the last 24 hours" }
          (str "banana") none) := rfl
  have e2 : process_query (pgQueryEngine [] none) clock1 (str "banana")
      = Except.ok (QueryResult.Empty
          { start := -86399, endTime := 1, description := str "the last 24 hours" }
          (str "banana") none) := rfl
  refine ⟨e1, e2, fun h => ?_⟩
  rw [e1, e2] at h
  simp at h

/-- C8 (amended): resolution is deterministic once the observed clock is
fixed: two calls with the same query, the same engine (unchanged store
state) and the same clock reading return equal `QueryResult` values. -/
theorem claim_C8_amended_idempotent (e : QueryEngine) (c1 c2 : Clock)
    (q : RStr) (h : c1 = c2) :
    process_query e c1 q = process_query e c2 q := by rw [h]

/-- Witness for the amended C8. -/
theorem claim_C8_witness :
    testClock = testClock
    ∧ process_query (pgQueryEngine [] none) testClock (str "banana")
        = process_query (pgQueryEngine [] none) testClock (str "banana") :=
  ⟨rfl, claim_C8_amended_idempotent (pgQueryEngine [] none) testClock
    testClock (str "banana") rfl⟩

/-- Modelled from the claim wording of C5 (spec section 4.3): try, in this
order, (a) a title beginning with a scheme yields the substring up to the
first space; (b) a title containing " - " yields the prefix before it when
that prefix starts with http, or contains www., or contains a recognized
top-level-domain substring; (c) otherwise no URL. -/
def extract_url_per_spec (title : RStr) : Option RStr :=
  if listStartsWith title (str "http://") || listStartsWith title (str "https://") then
    some (title.takeWhile (fun ch => ch != ' '))
  else
    match findSubIdx title (str " - ") with
    | some i =>
      let p := title.take i
      if listStartsWith p (str "http") || containsSub p (str "www.")
          || containsSub p (str ".com") || containsSub p (str ".org")
          || containsSub p (str ".net") || containsSub p (str ".io")
          || containsSub p (str ".app") || containsSub p (str ".dev") then
        some p
      else none
    | none => none

/-- C5 is false as stated: the code never truncates a scheme-prefixed title
at the first space (and it has a third, " | "-suffix pattern the claim
omits).  On the title "https://a.com b" the code reports the whole title,
while the claimed heuristic reports only "https://a.com". -/
theorem claim_C5_counterexample :
    extract_browser_url (str "https://a.com b") = some (str "https://a.com b")
    ∧ extract_url_per_spec (str "https://a.com b") = some (str "https://a.com")
    ∧ extract_browser_url (str "https://a.com b")
        ≠ extract_url_per_spec (str "https://a.com b") := by
  refine ⟨by decide, by decide, by decide⟩

/-- C5 (amended): the heuristic tries, in this order, first success winning:
(a) if the title contains " - ", take the trimmed prefix before the first
occurrence and accept it only if `is_likely_url` holds (starts with http or
www., or contains .com/.org/.net/.io/.app/.dev); (b) otherwise, if the
title contains " | ", take the trimmed suffix after the last occurrence,
with the same acceptance test; (c) otherwise report the whole title exactly
when it passes that test, and no URL if it fails. -/
theorem claim_C5_amended_url_heuristic (title : RStr) :
    (∀ i, findSubIdx title (str " - ") = some i →
      extract_browser_url title =
        (if is_likely_url (trim (title.take i)) then some (trim (title.take i))
         else none))
    ∧ (findSubIdx title (str " - ") = none →
       ∀ i, rfindSubIdx title (str " | ") = some i →
        extract_browser_url title =
          (if is_likely_url (trim (title.drop (i + 3))) then
            some (trim (title.drop (i + 3)))
           else none))
    ∧ (findSubIdx title (str " - ") = none →
       rfindSubIdx title (str " | ") = none →
        extract_browser_url title =
          (if is_likely_url title then some title else none)) := by
  refine ⟨?_, ?_, ?_⟩
  · intro i h
    simp only [extract_browser_url, h]
  · intro h1 i h2
    simp only [extract_browser_url, h1, h2]
  · intro h1 h2
    simp only [extract_browser_url, h1, h2]

/-- Witness for the amended C5 on a concrete " - "-separated title. -/
theorem claim_C5_witness :
    findSubIdx (str "www.example.com - Page") (str " - ") = some 15
    ∧ extract_browser_url (str "www.example.com - Page")
        = some (str "www.example.com") := by
  refine ⟨by decide, ?_⟩
  rw [(claim_C5_amended_url_heuristic (str "www.example.com - Page")).1 15
    (by decide)]
  decide

/-- Modelled from the claim wording of C7: the content search matches the
sanitized term case-insensitively against both the description and the tags
(ordering and limit as in the SQL). -/
def search_rows_per_claim (table : List SummaryRow) (search_term : RStr) :
    List SummaryRow :=
  (List.insertionSort rowGE (table.filter (fun r =>
      ilike_contains r.description search_term
      || r.tags.any (fun tag => ilike_contains tag search_term)))).take 10

/-- A summary row whose tags match a term its description does not. -/
def taggedRow : SummaryRow :=
  { id := 1, start_time := 0, end_time := 10, description := str "xyz",
    tags := [str "hello world"], keystrokes := [], created_at := 0 }

/-- C7 is false as stated: the SQL of `search_summaries` matches the
sanitized term against the description column only.  A summary tagged
"hello world" with description "xyz" is found by the claimed
description-and-tags search for the sanitized query "hello" but not by the
code. -/
theorem claim_C7_counterexample :
    sanitize_query_for_search (str "hello") = str "hello"
    ∧ sql_search_user_summaries [taggedRow] (str "hello") = []
    ∧ search_rows_per_claim [taggedRow] (str "hello") = [taggedRow] := by
  refine ⟨by decide, by decide, by decide⟩

/-- C7 (amended): Tier C sanitizes the query by stripping every character
that is not alphanumeric or whitespace, keeps only tokens of length at
least 3 joined by " OR " (falling back to "user activity" when none
remain), and searches by this term as a case-insensitive substring against
the description only, independent of the timeframe: every returned row is a
table row whose description matches, and whenever fewer than 10 rows are
returned, every matching table row is returned. -/
theorem claim_C7_amended_content_search (table : List SummaryRow) (q : RStr) :
    (sanitize_query_for_search q =
      (let clean_query := q.filter (fun ch => ch.isAlphanum || ch.isWhitespace)
       let terms := (split_whitespace clean_query).filter
         (fun word => word.length ≥ 3)
       if terms.isEmpty then str "user activity"
       else List.intercalate (str " OR ") terms))
    ∧ (∀ r ∈ sql_search_user_summaries table (sanitize_query_for_search q),
        r ∈ table
        ∧ ilike_contains r.description (sanitize_query_for_search q) = true)
    ∧ ((sql_search_user_summaries table (sanitize_query_for_search q)).length < 10 →
        ∀ r ∈ table,
          ilike_contains r.description (sanitize_query_for_search q) = true →
          r ∈ sql_search_user_summaries table (sanitize_query_for_search q)) := by
  refine ⟨rfl, ?_, ?_⟩
  · intro r hr
    have hmem : r ∈ List.insertionSort rowGE (table.filter (fun row =>
        ilike_contains row.description (sanitize_query_for_search q))) :=
      (List.take_sublist 10 _).mem hr
    have hfil : r ∈ table.filter (fun row =>
        ilike_contains row.description (sanitize_query_for_search q)) :=
      ((List.perm_insertionSort rowGE _).mem_iff).mp hmem
    simpa using List.mem_filter.mp hfil
  · intro hlen r hrt hmatch
    have hfil : r ∈ table.filter (fun row =>
        ilike_contains row.description (sanitize_query_for_search q)) :=
      List.mem_filter.mpr ⟨hrt, by simpa using hmatch⟩
    have hsorted : r ∈ List.insertionSort rowGE (table.filter (fun row =>
        ilike_contains row.description (sanitize_query_for_search q))) :=
      ((List.perm_insertionSort rowGE _).mem_iff).mpr hfil
    have hshort : (List.insertionSort rowGE (table.filter (fun row =>
        ilike_contains row.description (sanitize_query_for_search q)))).length ≤ 10 := by
      by_contra hgt
      have hlen10 : (sql_search_user_summaries table
          (sanitize_query_for_search q)).length = 10 := by
        simp only [sql_search_user_summaries, List.length_take]
        omega
      omega
    have htake : (List.insertionSort rowGE (table.filter (fun row =>
        ilike_contains row.description (sanitize_query_for_search q)))).take 10
        = List.insertionSort rowGE (table.filter (fun row =>
            ilike_contains row.description (sanitize_query_for_search q))) :=
      List.take_of_length_le hshort
    simpa only [sql_search_user_summaries, htake] using hsorted

/-- A summary row whose description matches the term "hello". -/
def descRow : SummaryRow :=
  { id := 2, start_time := 5, end_time := 6,
    description := str "wrote hello docs", tags := [], keystrokes := [],
    created_at := 0 }

/-- Witness for the amended C7 on a concrete one-row table. -/
theorem claim_C7_witness :
    descRow ∈ sql_search_user_summaries [descRow]
      (sanitize_query_for_search (str "hello"))
    ∧ descRow ∈ [descRow]
    ∧ ilike_contains descRow.description
        (sanitize_query_for_search (str "hello")) = true := by
  have h := (claim_C7_amended_content_search [descRow] (str "hello")).2.1
    descRow (by decide)
  exact ⟨by decide, h.1, h.2⟩

/-- C10: the Tier C content search (`search_summaries`: SQL with
`ORDER BY start_time DESC LIMIT 10` plus row parsing) returns at most 10
summaries, in descending order of `start_time`, whatever the table contents
and search term. -/
theorem claim_C10_search_limit_and_order (table : List SummaryRow)
    (term : RStr) :
    (search_summaries_impl table term).length ≤ 10
    ∧ List.Sorted (fun a b : ActivitySummary => b.start_time ≤ a.start_time)
        (search_summaries_impl table term) := by
  constructor
  · simp only [search_summaries_impl, sql_search_user_summaries,
      List.length_map, List.length_take]
    omega
  · have hs : List.Sorted rowGE (List.insertionSort rowGE
        (table.filter (fun r => ilike_contains r.description term))) :=
      List.sorted_insertionSort rowGE _
    have htake : List.Sorted rowGE (sql_search_user_summaries table term) :=
      List.Pairwise.sublist (List.take_sublist 10 _) hs
    exact List.Pairwise.map parse_summary_from_row
      (fun a b hab => hab) htake

end SecondBrain
